import Mathlib

/-!
Shallow embedding of the clamav-stream crate (src/lib.rs, src/error.rs).

The crate wraps an upstream chunk stream in a `ScannedStream` that relays
every chunk to a clamav daemon connection (length-prefixed INSTREAM
protocol) while passing the chunk through to the consumer unchanged.  On
upstream exhaustion it writes a zero terminator, reads the daemon's whole
response and classifies it.

Modelling choices:
  * a byte is a `Nat`; a chunk (`bytes::Bytes`) is a `List Nat`;
  * the daemon connection (`RW : Read + Write`) is a `Conn` record: the
    log of `write_all` calls (one list entry per call, exactly as the
    crate's own `MockStream` test double records them), a fault model for
    writes (`writeOk`, indexed by the number of write calls so far) and
    for the single `read_to_end` (`readOk`), and the UTF-8 decoding result
    of the response bytes (`response`: `Except` of the decode-error text
    or the decoded text), since `std::str::from_utf8` is library code;
  * the upstream stream is the list of items it will yield, each
    `Except String (List Nat)` (an upstream error is kept as its display
    text, which is all the crate ever uses of it); after the list is
    exhausted the stream yields `none` forever, as `tokio_stream::iter`
    does;
  * `Poll::Pending` never occurs (the model's upstream is always ready);
    every claim under proof is about sequences of completed pulls;
  * `startWrites` and `finishWrites` on `ScannedStream` are ghost
    instrumentation counters, incremented exactly where `poll_next`
    attempts the preamble / terminator `write_clamav!` calls; they let
    at-most-once statements be made without parsing the byte log.
-/

/-- The error enum of src/error.rs.  Each payload is kept as the display
text of the wrapped value (`io::Error`, `Utf8Error`, the boxed stream
error, or the scan message), which is exactly what `Display` and the
`PartialEq` impl consume. -/
inductive Error where
  | Io : String → Error
  | Utf8 : String → Error
  | Stream : String → Error
  | Scan : String → Error
deriving DecidableEq, Repr

/-- The `Display` impl derived by thiserror from the `#[error(...)]`
attributes in src/error.rs. -/
def Error.display : Error → String
  | Error.Io e => "io error: " ++ e
  | Error.Utf8 e => "utf8 error: " ++ e
  | Error.Stream e => "stream error: " ++ e
  | Error.Scan s => s

/-- The `PartialEq` impl of src/error.rs: compare the `format!("{self}")`
renderings. -/
def Error.peq (a b : Error) : Bool :=
  a.display == b.display

/-- Rust `sub.is_prefix_of`-style check is `List.isPrefixOf`; this is
`str::contains`: does `pat` occur as a contiguous subsequence of `l`? -/
def containsSub (pat : List Char) : List Char → Bool
  | [] => pat.isEmpty
  | a :: tl => pat.isPrefixOf (a :: tl) || containsSub pat tl

/-- The semantics of Rust `s.contains(pat)` on strings. -/
def strContains (s pat : String) : Bool :=
  containsSub pat.data s.data

/-- The constant `START: &[u8; 10] = b"zINSTREAM\0"` of src/lib.rs. -/
def START : List Nat := [122, 73, 78, 83, 84, 82, 69, 65, 77, 0]

/-- The constant `FINISH: &[u8; 4] = &[0, 0, 0, 0]` of src/lib.rs. -/
def FINISH : List Nat := [0, 0, 0, 0]

/-- The constant `CHUNK_SIZE: usize = 4096` of src/lib.rs. -/
def CHUNK_SIZE : Nat := 4096

/-- Rust `(len as u32).to_be_bytes()`: the four big-endian bytes of `n`
(`n < 2^32` in every use, since frame lengths are at most 4096). -/
def u32be (n : Nat) : List Nat :=
  [n / 2 ^ 24 % 256, n / 2 ^ 16 % 256, n / 2 ^ 8 % 256, n % 256]

/-- Rust `slice::chunks(k)`: split a list into consecutive slices of `k`
elements, the last one possibly shorter; the empty list gives no slices.
Faithful for `k ≥ 1` (Rust panics on `k = 0`; the crate only uses
`k = CHUNK_SIZE = 4096`). -/
def chunksOf (k : Nat) : List α → List (List α)
  | [] => []
  | a :: tl => (a :: tl.take (k - 1)) :: chunksOf k (tl.drop (k - 1))
termination_by l => l.length
decreasing_by
  simp only [List.length_drop, List.length_cons]
  omega

/-- The daemon connection: the model of the `RW : Read + Write` value. -/
@[ext]
structure Conn where
  /-- Log of the buffers passed to `write_all`, one entry per call. -/
  written : List (List Nat)
  /-- Number of write calls attempted so far (successful or not). -/
  writeCount : Nat
  /-- Fault model: does the i-th write call succeed? -/
  writeOk : Nat → Bool
  /-- Display text of the `io::Error` a faulted write or read produces. -/
  ioMsg : String
  /-- Number of `read_to_end` calls so far. -/
  readCount : Nat
  /-- Fault model: does `read_to_end` succeed? -/
  readOk : Bool
  /-- UTF-8 decode of the response bytes: the text, or the decode error. -/
  response : Except String String

/-- A freshly established connection: nothing written or read yet. -/
def Conn.new (wOk : Nat → Bool) (msg : String) (rOk : Bool)
    (resp : Except String String) : Conn :=
  { written := []
    writeCount := 0
    writeOk := wOk
    ioMsg := msg
    readCount := 0
    readOk := rOk
    response := resp }

/-- `fn write_stream(stream, buf)` of src/lib.rs: `stream.write_all(buf)`,
returning the updated connection and `some` error on failure. -/
def write_stream (c : Conn) (buf : List Nat) : Conn × Option Error :=
  if c.writeOk c.writeCount then
    ({ c with written := c.written ++ [buf], writeCount := c.writeCount + 1 }, none)
  else
    ({ c with writeCount := c.writeCount + 1 }, some (Error.Io c.ioMsg))

/-- `fn read_stream_response(stream)` of src/lib.rs: `read_to_end`, decode
as UTF-8, then classify: clean iff the text contains "OK" and does not
contain "FOUND"; any other text is the `Error::Scan` payload verbatim. -/
def read_stream_response (c : Conn) : Conn × Option Error :=
  if c.readOk then
    match c.response with
    | Except.error u => ({ c with readCount := c.readCount + 1 }, some (Error.Utf8 u))
    | Except.ok res =>
      if strContains res "OK" && !strContains res "FOUND" then
        ({ c with readCount := c.readCount + 1 }, none)
      else
        ({ c with readCount := c.readCount + 1 }, some (Error.Scan res))
  else
    ({ c with readCount := c.readCount + 1 }, some (Error.Io c.ioMsg))

/-- The `for chunk in bytes.chunks(CHUNK_SIZE)` loop body of `poll_next`:
for each sub-chunk write the 4-byte big-endian length, then the sub-chunk,
stopping at the first write error (`write_clamav!` early-returns). -/
def writeFrames : Conn → List (List Nat) → Conn × Option Error
  | c, [] => (c, none)
  | c, sc :: rest =>
    match (write_stream c (u32be sc.length)).2 with
    | some e => ((write_stream c (u32be sc.length)).1, some e)
    | none =>
      match (write_stream (write_stream c (u32be sc.length)).1 sc).2 with
      | some e => ((write_stream (write_stream c (u32be sc.length)).1 sc).1, some e)
      | none => writeFrames (write_stream (write_stream c (u32be sc.length)).1 sc).1 rest

/-- The `ScannedStream` state: the remaining upstream items, the daemon
connection, and the `started` / `finished` flags of src/lib.rs.
`startWrites` / `finishWrites` are ghost counters of how many times the
preamble / terminator write was attempted. -/
@[ext]
structure ScannedStream where
  input : List (Except String (List Nat))
  inner : Conn
  started : Bool
  finished : Bool
  startWrites : Nat
  finishWrites : Nat

/-- `ScannedStream::new(input, inner)`: flags start false. -/
def ScannedStream.new (input : List (Except String (List Nat))) (inner : Conn) :
    ScannedStream :=
  { input := input
    inner := inner
    started := false
    finished := false
    startWrites := 0
    finishWrites := 0 }

/-- One call of `Stream::poll_next` of src/lib.rs, returning the new state
and the produced item: `some (Except.ok bytes)` for a passed-through
chunk, `some (Except.error e)` for an error item, `none` for
`Poll::Ready(None)` (end of stream).

Source shape mirrored exactly: a data chunk first sets `started` and
writes the preamble if not yet started (a failed preamble write still
leaves `started = true` and drops the chunk), then writes the frames; an
upstream error is wrapped as `Error::Stream`; on upstream exhaustion, if
`finished` the stream just ends, else `finished` is set, the terminator is
written and the response read, any error becoming the item. -/
def poll_next (s : ScannedStream) : ScannedStream × Option (Except Error (List Nat)) :=
  match s.input with
  | Except.ok bytes :: rest =>
    if s.started then
      match (writeFrames s.inner (chunksOf CHUNK_SIZE bytes)).2 with
      | some e =>
        ({ s with input := rest, inner := (writeFrames s.inner (chunksOf CHUNK_SIZE bytes)).1 },
         some (Except.error e))
      | none =>
        ({ s with input := rest, inner := (writeFrames s.inner (chunksOf CHUNK_SIZE bytes)).1 },
         some (Except.ok bytes))
    else
      match (write_stream s.inner START).2 with
      | some e =>
        ({ s with
            input := rest
            started := true
            startWrites := s.startWrites + 1
            inner := (write_stream s.inner START).1 },
         some (Except.error e))
      | none =>
        match (writeFrames (write_stream s.inner START).1 (chunksOf CHUNK_SIZE bytes)).2 with
        | some e =>
          ({ s with
              input := rest
              started := true
              startWrites := s.startWrites + 1
              inner := (writeFrames (write_stream s.inner START).1 (chunksOf CHUNK_SIZE bytes)).1 },
           some (Except.error e))
        | none =>
          ({ s with
              input := rest
              started := true
              startWrites := s.startWrites + 1
              inner := (writeFrames (write_stream s.inner START).1 (chunksOf CHUNK_SIZE bytes)).1 },
           some (Except.ok bytes))
  | Except.error err :: rest =>
    ({ s with input := rest }, some (Except.error (Error.Stream err)))
  | [] =>
    if s.finished then (s, none)
    else
      match (write_stream s.inner FINISH).2 with
      | some e =>
        ({ s with
            finished := true
            finishWrites := s.finishWrites + 1
            inner := (write_stream s.inner FINISH).1 },
         some (Except.error e))
      | none =>
        match (read_stream_response (write_stream s.inner FINISH).1).2 with
        | some e =>
          ({ s with
              finished := true
              finishWrites := s.finishWrites + 1
              inner := (read_stream_response (write_stream s.inner FINISH).1).1 },
           some (Except.error e))
        | none =>
          ({ s with
              finished := true
              finishWrites := s.finishWrites + 1
              inner := (read_stream_response (write_stream s.inner FINISH).1).1 },
           none)

/-- The items of `n` consecutive pulls, and the state afterwards. -/
def pulls : Nat → ScannedStream → List (Option (Except Error (List Nat))) × ScannedStream
  | 0, s => ([], s)
  | k + 1, s =>
    ((poll_next s).2 :: (pulls k (poll_next s).1).1, (pulls k (poll_next s).1).2)

/-- The wire frames of one upstream chunk: for each at-most-4096-byte
slice, the write of the 4-byte big-endian length, then the write of the
slice. -/
def frameWrites (chunk : List Nat) : List (List Nat) :=
  (chunksOf CHUNK_SIZE chunk).flatMap (fun sc => [u32be sc.length, sc])

/-- The total frame bytes of one upstream chunk (frames flattened). -/
def frameBytes (chunk : List Nat) : List Nat :=
  (chunksOf CHUNK_SIZE chunk).flatMap (fun sc => u32be sc.length ++ sc)

/-- An all-writes-succeed connection with decoded response `resp`. -/
def goodConn (msg : String) (rOk : Bool) (resp : Except String String) : Conn :=
  Conn.new (fun _ => true) msg rOk resp

/-! ### Helper lemmas: closed forms on an all-writes-succeed connection -/

theorem write_stream_ok (c : Conn) (buf : List Nat) (h : c.writeOk = fun _ => true) :
    write_stream c buf =
      ({ c with written := c.written ++ [buf], writeCount := c.writeCount + 1 }, none) := by
  simp [write_stream, h]

theorem writeFrames_ok (scs : List (List Nat)) (c : Conn) (h : c.writeOk = fun _ => true) :
    writeFrames c scs =
      ({ c with
          written := c.written ++ scs.flatMap (fun sc => [u32be sc.length, sc])
          writeCount := c.writeCount + 2 * scs.length }, none) := by
  induction scs generalizing c with
  | nil => simp [writeFrames]
  | cons sc rest ih =>
    simp only [writeFrames, write_stream_ok _ _ h]
    rw [write_stream_ok _ _ (by simp [h]), ih _ (by simp [h])]
    simp only [Prod.mk.injEq, Conn.ext_iff, List.flatMap_cons, List.append_assoc,
      List.cons_append, List.nil_append, List.length_cons, and_true, true_and]
    omega

theorem pulls_add (a b : Nat) (s : ScannedStream) :
    pulls (a + b) s =
      ((pulls a s).1 ++ (pulls b (pulls a s).2).1, (pulls b (pulls a s).2).2) := by
  induction a generalizing s with
  | zero => simp [pulls]
  | succ a ih => simp only [Nat.succ_add, pulls, ih, List.cons_append]

/-- The state after relaying the chunks `cs` (on an all-writes-succeed
connection) when `rest` is still to come: the preamble has been written
iff the stream had not started and at least one chunk arrived, every
chunk's frames follow, and the `finished` side is untouched. -/
def dataState (s : ScannedStream) (cs : List (List Nat))
    (rest : List (Except String (List Nat))) : ScannedStream :=
  { input := rest
    inner := { s.inner with
        written := s.inner.written ++ (if s.started || cs.isEmpty then [] else [START])
          ++ cs.flatMap frameWrites
        writeCount := s.inner.writeCount + (if s.started || cs.isEmpty then 0 else 1)
          + 2 * (cs.map (fun b => (chunksOf CHUNK_SIZE b).length)).sum }
    started := s.started || !cs.isEmpty
    finished := s.finished
    startWrites := s.startWrites + (if s.started || cs.isEmpty then 0 else 1)
    finishWrites := s.finishWrites }

theorem pulls_data (cs : List (List Nat)) (rest : List (Except String (List Nat)))
    (s : ScannedStream) (hin : s.input = cs.map Except.ok ++ rest)
    (hw : s.inner.writeOk = fun _ => true) :
    pulls cs.length s = (cs.map (fun b => some (Except.ok b)), dataState s cs rest) := by
  induction cs generalizing s with
  | nil =>
    simp only [List.length_nil, pulls, List.map_nil, Prod.mk.injEq, true_and]
    simp only [List.map_nil, List.nil_append] at hin
    simp [dataState, ScannedStream.ext_iff, Conn.ext_iff, hin]
  | cons b cs ih =>
    simp only [List.length_cons, List.map_cons, pulls, poll_next, hin, List.cons_append]
    by_cases hst : s.started
    · rw [if_pos hst, writeFrames_ok _ _ hw]
      rw [ih _ rfl (by simpa using hw)]
      simp only [Prod.mk.injEq, List.map_cons, true_and, dataState, ScannedStream.ext_iff,
        Conn.ext_iff, hst, Bool.true_or, if_pos, List.isEmpty_cons, Bool.or_false,
        List.flatMap_cons, List.append_assoc, List.nil_append, List.map_cons, List.sum_cons,
        and_true, true_and, frameWrites]
      omega
    · rw [if_neg hst, write_stream_ok _ _ hw]
      rw [writeFrames_ok _ _ (by simpa using hw)]
      rw [ih _ rfl (by simpa using hw)]
      have hst' : s.started = false := by simpa using hst
      simp only [Prod.mk.injEq, List.map_cons, true_and, dataState, ScannedStream.ext_iff,
        Conn.ext_iff, hst', Bool.false_or, Bool.true_or, List.isEmpty_cons, List.flatMap_cons,
        List.append_assoc, List.cons_append, List.nil_append, List.map_cons, List.sum_cons,
        and_true, true_and, frameWrites, Bool.not_false, Bool.false_eq_true,
        not_false_eq_true, if_true, if_false, ite_true, ite_false]
      omega

theorem poll_done (s : ScannedStream) (hin : s.input = []) (hfin : s.finished = true) :
    poll_next s = (s, none) := by
  simp [poll_next, hin, hfin]

theorem pulls_done (k : Nat) (s : ScannedStream) (hin : s.input = [])
    (hfin : s.finished = true) :
    pulls k s = (List.replicate k none, s) := by
  induction k with
  | zero => simp [pulls]
  | succ k ih => simp [pulls, poll_done s hin hfin, ih, List.replicate_succ]

/-- The finalization pull on an exhausted upstream: the terminator goes
out, the response is read, and the produced item is exactly the
classification error (or nothing when clean). -/
theorem poll_finalize (s : ScannedStream) (hin : s.input = []) (hfin : s.finished = false)
    (hw : s.inner.writeOk = fun _ => true) :
    poll_next s =
      ({ s with
          finished := true
          finishWrites := s.finishWrites + 1
          inner := { s.inner with
              written := s.inner.written ++ [FINISH]
              writeCount := s.inner.writeCount + 1
              readCount := s.inner.readCount + 1 } },
       Option.map Except.error (read_stream_response s.inner).2) := by
  simp only [poll_next, hin, hfin, Bool.false_eq_true, if_false]
  rw [write_stream_ok _ _ hw]
  simp only [read_stream_response]
  cases hro : s.inner.readOk with
  | false => simp [hro, ScannedStream.ext_iff, Conn.ext_iff]
  | true =>
    cases hresp : s.inner.response with
    | error u => simp [hro, hresp, ScannedStream.ext_iff, Conn.ext_iff]
    | ok res =>
      by_cases hcl : (strContains res "OK" && !strContains res "FOUND") = true
      · simp [hro, hresp, hcl, ScannedStream.ext_iff, Conn.ext_iff]
      · simp [hro, hresp, hcl, ScannedStream.ext_iff, Conn.ext_iff]

/-! ### Claims -/

/-- Claim C1 (passthrough identity, clean case): for any finite sequence
of upstream chunks and a daemon response text containing "OK" but not
"FOUND", pulling the `ScannedStream` to completion yields exactly the
upstream chunks, byte-for-byte and in order, followed by end-of-stream,
with no verdict item. -/
theorem clean_passthrough (cs : List (List Nat)) (m res : String)
    (hok : strContains res "OK" = true) (hnf : strContains res "FOUND" = false) :
    (pulls (cs.length + 1) (ScannedStream.new (cs.map Except.ok)
        (Conn.new (fun _ => true) m true (Except.ok res)))).1 =
      cs.map (fun b => some (Except.ok b)) ++ [none] := by
  rw [pulls_add]
  rw [pulls_data cs [] _ (by simp [ScannedStream.new]) (by simp [ScannedStream.new, Conn.new])]
  simp only [pulls, List.append_nil]
  rw [poll_finalize _ (by simp [dataState]) (by simp [dataState, ScannedStream.new])
    (by simp [dataState, ScannedStream.new, Conn.new])]
  simp [read_stream_response, dataState, ScannedStream.new, Conn.new, hok, hnf]

/-- Witness for C1 at the crate's own test input. -/
theorem clean_passthrough_witness :
    (pulls 2 (ScannedStream.new [Except.ok [72]]
        (Conn.new (fun _ => true) "io" true (Except.ok "stream: OK")))).1 =
      [some (Except.ok [72]), none] :=
  clean_passthrough [[72]] "io" "stream: OK" (by decide) (by decide)

/-- Claim C2 (classification decision rule): when the daemon response
bytes decode as UTF-8 text `res`, `read_stream_response` succeeds
silently iff `res` contains "OK" and does not contain "FOUND"; any other
UTF-8 response yields exactly one `Error.Scan` whose payload is the whole
response text verbatim. -/
theorem classification_rule (c : Conn) (res : String)
    (hro : c.readOk = true) (hresp : c.response = Except.ok res) :
    ((read_stream_response c).2 = none ↔
      (strContains res "OK" = true ∧ strContains res "FOUND" = false)) ∧
    (¬(strContains res "OK" = true ∧ strContains res "FOUND" = false) →
      (read_stream_response c).2 = some (Error.Scan res)) := by
  by_cases hcl : (strContains res "OK" && !strContains res "FOUND") = true
  · have h2 : strContains res "OK" = true ∧ strContains res "FOUND" = false := by
      revert hcl
      cases strContains res "OK" <;> cases strContains res "FOUND" <;> simp
    simp [read_stream_response, hro, hresp, hcl, h2]
  · have h2 : ¬(strContains res "OK" = true ∧ strContains res "FOUND" = false) := by
      revert hcl
      cases strContains res "OK" <;> cases strContains res "FOUND" <;> simp
    simp [read_stream_response, hro, hresp, hcl, h2]

/-- Witness for C2: an infected response on a concrete connection. -/
theorem classification_rule_witness :
    ((read_stream_response (Conn.new (fun _ => true) "io" true
        (Except.ok "stream: Eicar-Signature FOUND"))).2 = none ↔
      (strContains "stream: Eicar-Signature FOUND" "OK" = true ∧
        strContains "stream: Eicar-Signature FOUND" "FOUND" = false)) ∧
    (¬(strContains "stream: Eicar-Signature FOUND" "OK" = true ∧
        strContains "stream: Eicar-Signature FOUND" "FOUND" = false) →
      (read_stream_response (Conn.new (fun _ => true) "io" true
        (Except.ok "stream: Eicar-Signature FOUND"))).2 =
        some (Error.Scan "stream: Eicar-Signature FOUND")) :=
  classification_rule _ "stream: Eicar-Signature FOUND" rfl rfl

/-- Claim C4 (infection surfacing): with a daemon response containing
"FOUND", pulling to completion yields all upstream chunks in order, then
exactly one `Error.Scan` item carrying the full response text, then
end-of-stream; the verdict is strictly the last item. -/
theorem infection_surfacing (cs : List (List Nat)) (m res : String)
    (hf : strContains res "FOUND" = true) :
    (pulls (cs.length + 2) (ScannedStream.new (cs.map Except.ok)
        (Conn.new (fun _ => true) m true (Except.ok res)))).1 =
      cs.map (fun b => some (Except.ok b)) ++
        [some (Except.error (Error.Scan res)), none] := by
  rw [pulls_add]
  rw [pulls_data cs [] _ (by simp [ScannedStream.new]) (by simp [ScannedStream.new, Conn.new])]
  simp only [pulls]
  rw [poll_finalize _ (by simp [dataState]) (by simp [dataState, ScannedStream.new])
    (by simp [dataState, ScannedStream.new, Conn.new])]
  rw [poll_done _ (by simp [dataState]) (by simp)]
  simp [read_stream_response, dataState, ScannedStream.new, Conn.new, hf]

/-- Witness for C4 at the crate's own test scenario. -/
theorem infection_surfacing_witness :
    (pulls 3 (ScannedStream.new [Except.ok [72]]
        (Conn.new (fun _ => true) "io" true (Except.ok "FOUND test virus")))).1 =
      [some (Except.ok [72]),
        some (Except.error (Error.Scan "FOUND test virus")), none] :=
  infection_surfacing [[72]] "io" "FOUND test virus" (by decide)

/-- Claim C8 (decode-failure distinctness): when the daemon's response
bytes are not valid UTF-8, pulling to completion yields exactly one
`Error.Utf8` item and then end-of-stream; that variant is distinct from
the `Error.Scan` verdict, and its display text is prefixed
"utf8 error: ", so a caller can tell a failed decode from an infected
verdict. -/
theorem utf8_decode_distinct (cs : List (List Nat)) (m u : String) :
    (pulls (cs.length + 2) (ScannedStream.new (cs.map Except.ok)
        (Conn.new (fun _ => true) m true (Except.error u)))).1 =
      cs.map (fun b => some (Except.ok b)) ++
        [some (Except.error (Error.Utf8 u)), none] ∧
    (Error.Utf8 u).display = "utf8 error: " ++ u ∧
    (∀ t : String, Error.Utf8 u ≠ Error.Scan t) := by
  refine ⟨?_, rfl, fun t h => Error.noConfusion h⟩
  rw [pulls_add]
  rw [pulls_data cs [] _ (by simp [ScannedStream.new]) (by simp [ScannedStream.new, Conn.new])]
  simp only [pulls]
  rw [poll_finalize _ (by simp [dataState]) (by simp [dataState, ScannedStream.new])
    (by simp [dataState, ScannedStream.new, Conn.new])]
  rw [poll_done _ (by simp [dataState]) (by simp)]
  simp [read_stream_response, dataState, ScannedStream.new, Conn.new]

theorem poll_error (s : ScannedStream) (e : String)
    (rest : List (Except String (List Nat))) (hin : s.input = Except.error e :: rest) :
    poll_next s = ({ s with input := rest }, some (Except.error (Error.Stream e))) := by
  simp [poll_next, hin]

theorem pulls_through_error (cs : List (List Nat)) (e m : String) (rOk : Bool)
    (resp : Except String String) :
    pulls (cs.length + 1) (ScannedStream.new (cs.map Except.ok ++ [Except.error e])
        (Conn.new (fun _ => true) m rOk resp)) =
      (cs.map (fun b => some (Except.ok b)) ++ [some (Except.error (Error.Stream e))],
       { dataState (ScannedStream.new (cs.map Except.ok ++ [Except.error e])
            (Conn.new (fun _ => true) m rOk resp)) cs [Except.error e] with
          input := [] }) := by
  rw [pulls_add]
  rw [pulls_data cs [Except.error e] _ (by simp [ScannedStream.new])
    (by simp [ScannedStream.new, Conn.new])]
  dsimp only
  simp only [pulls]
  rw [poll_error _ e [] (by simp [dataState])]

/-- Counterexample to claim C6 as stated: after the upstream error item
the relay has no terminal state, so if the consumer pulls once more in
the same lifetime the relay finalizes — the terminator write happens and
the write log ends with the 4-byte zero terminator, refuting "the 4-byte
zero terminator is never written in this lifetime". -/
theorem upstream_error_terminator_cx :
    (pulls 2 (ScannedStream.new [Except.ok [1], Except.error "e"]
        (Conn.new (fun _ => true) "io" true (Except.ok "stream: OK")))).1 =
      [some (Except.ok [1]), some (Except.error (Error.Stream "e"))] ∧
    (pulls 3 (ScannedStream.new [Except.ok [1], Except.error "e"]
        (Conn.new (fun _ => true) "io" true (Except.ok "stream: OK")))).2.finishWrites = 1 ∧
    (pulls 3 (ScannedStream.new [Except.ok [1], Except.error "e"]
        (Conn.new (fun _ => true) "io" true (Except.ok "stream: OK")))).2.inner.written =
      [START, [0, 0, 0, 1], [1], FINISH] := by
  have hA := pulls_through_error [[1]] "e" "io" true (Except.ok "stream: OK")
  simp only [List.length_cons, List.length_nil, Nat.zero_add, Nat.reduceAdd,
    List.map_cons, List.map_nil, List.singleton_append, List.cons_append,
    List.nil_append] at hA
  refine ⟨?_, ?_, ?_⟩
  · rw [hA]
  · rw [show (3 : Nat) = 2 + 1 from rfl, pulls_add, hA]
    dsimp only
    simp only [pulls]
    rw [poll_finalize _ rfl (by simp [dataState, ScannedStream.new])
      (by simp [dataState, ScannedStream.new, Conn.new])]
    simp [dataState, ScannedStream.new]
  · rw [show (3 : Nat) = 2 + 1 from rfl, pulls_add, hA]
    dsimp only
    simp only [pulls]
    rw [poll_finalize _ rfl (by simp [dataState, ScannedStream.new])
      (by simp [dataState, ScannedStream.new, Conn.new])]
    simp [dataState, ScannedStream.new, Conn.new, frameWrites, chunksOf, u32be]

/-- Claim C6 as amended (upstream-error short-circuit): when upstream
yields its chunks and then an error, the pulls through the error item
produce exactly those chunks followed by one wrapped `Error.Stream` item
(whose display preserves the original error's description), without
transitioning to finalization and without any terminator-write attempt;
but the relay has no terminal state after the error — if the consumer
pulls once more, the relay finalizes on that very next pull: the
terminator write happens and the write log ends with the zero
terminator. -/
theorem upstream_error_short_circuit (cs : List (List Nat)) (e m : String)
    (rOk : Bool) (resp : Except String String) :
    (pulls (cs.length + 1) (ScannedStream.new (cs.map Except.ok ++ [Except.error e])
        (Conn.new (fun _ => true) m rOk resp))).1 =
      cs.map (fun b => some (Except.ok b)) ++
        [some (Except.error (Error.Stream e))] ∧
    (pulls (cs.length + 1) (ScannedStream.new (cs.map Except.ok ++ [Except.error e])
        (Conn.new (fun _ => true) m rOk resp))).2.finished = false ∧
    (pulls (cs.length + 1) (ScannedStream.new (cs.map Except.ok ++ [Except.error e])
        (Conn.new (fun _ => true) m rOk resp))).2.finishWrites = 0 ∧
    (Error.Stream e).display = "stream error: " ++ e ∧
    (pulls (cs.length + 1 + 1) (ScannedStream.new (cs.map Except.ok ++ [Except.error e])
        (Conn.new (fun _ => true) m rOk resp))).2.finishWrites = 1 ∧
    (pulls (cs.length + 1 + 1) (ScannedStream.new (cs.map Except.ok ++ [Except.error e])
        (Conn.new (fun _ => true) m rOk resp))).2.inner.written =
      (if cs.isEmpty then [] else [START]) ++ cs.flatMap frameWrites ++ [FINISH] := by
  refine ⟨?_, ?_, ?_, rfl, ?_, ?_⟩
  · rw [pulls_through_error]
  · rw [pulls_through_error]
    simp [dataState, ScannedStream.new]
  · rw [pulls_through_error]
    simp [dataState, ScannedStream.new]
  · rw [pulls_add, pulls_through_error]
    dsimp only
    simp only [pulls]
    rw [poll_finalize _ rfl (by simp [dataState, ScannedStream.new])
      (by simp [dataState, ScannedStream.new, Conn.new])]
    simp [dataState, ScannedStream.new]
  · rw [pulls_add, pulls_through_error]
    dsimp only
    simp only [pulls]
    rw [poll_finalize _ rfl (by simp [dataState, ScannedStream.new])
      (by simp [dataState, ScannedStream.new, Conn.new])]
    simp [dataState, ScannedStream.new, Conn.new, List.append_assoc]

/-- Claim C10 (error equality is purely textual): the modelled
`PartialEq` on `Error` holds iff the two display renderings are equal;
in particular two errors of different variants compare equal when their
messages coincide, so equality is not discriminated by variant. -/
theorem error_eq_textual (a b : Error) :
    (Error.peq a b = true ↔ a.display = b.display) ∧
    Error.peq (Error.Scan "io error: x") (Error.Io "x") = true ∧
    Error.Scan "io error: x" ≠ Error.Io "x" := by
  refine ⟨?_, by decide, by decide⟩
  simp [Error.peq]

theorem flatten_pairs (scs : List (List Nat)) :
    (scs.flatMap (fun sc => [u32be sc.length, sc])).flatten =
      scs.flatMap (fun sc => u32be sc.length ++ sc) := by
  induction scs with
  | nil => rfl
  | cons sc rest ih => simp [ih]

theorem flatten_frameWrites (cs : List (List Nat)) :
    (cs.flatMap frameWrites).flatten = cs.flatMap frameBytes := by
  induction cs with
  | nil => rfl
  | cons b cs ih =>
    simp only [List.flatMap_cons, List.flatten_append, ih, frameWrites, frameBytes,
      flatten_pairs]

/-- Counterexample to claim C3 as stated: for the empty sequence of
upstream chunks (vacuously a sequence of non-empty chunks) the relay
never writes the preamble — the total byte sequence written is just the
terminator, not preamble-then-terminator. -/
theorem wire_framing_empty_cx :
    (pulls 1 (ScannedStream.new [] (Conn.new (fun _ => true) "io" true
        (Except.ok "stream: OK")))).2.inner.written.flatten = FINISH ∧
    FINISH ≠ START ++ ([] : List (List Nat)).flatMap frameBytes ++ FINISH := by
  exact ⟨rfl, by decide⟩

/-- Claim C3 as amended (wire framing correctness): for every non-empty
finite sequence of non-empty upstream chunks, after pulling the relay to
completion the total byte sequence written to the daemon connection is
the 10-byte preamble, then for each at-most-4096-byte slice of each
chunk (in order) a 4-byte big-endian length prefix followed by the
slice's bytes, then the 4-byte zero terminator. -/
theorem wire_framing (cs : List (List Nat)) (m : String) (rOk : Bool)
    (resp : Except String String) (hne : cs ≠ []) (hch : ∀ b ∈ cs, b ≠ []) :
    (pulls (cs.length + 1) (ScannedStream.new (cs.map Except.ok)
        (Conn.new (fun _ => true) m rOk resp))).2.inner.written.flatten =
      START ++ cs.flatMap frameBytes ++ FINISH := by
  rw [pulls_add]
  rw [pulls_data cs [] _ (by simp [ScannedStream.new]) (by simp [ScannedStream.new, Conn.new])]
  simp only [pulls]
  rw [poll_finalize _ (by simp [dataState]) (by simp [dataState, ScannedStream.new])
    (by simp [dataState, ScannedStream.new, Conn.new])]
  obtain ⟨a, tl, rfl⟩ : ∃ a tl, cs = a :: tl := by
    cases cs with
    | nil => exact absurd rfl hne
    | cons a tl => exact ⟨a, tl, rfl⟩
  simp [dataState, ScannedStream.new, Conn.new, List.flatten_append, flatten_frameWrites,
    frameWrites, frameBytes, flatten_pairs, List.append_assoc]

/-- Witness for the amended C3 at the spec's concrete scenario
(chunks "Hello " and "World"). -/
theorem wire_framing_witness :
    (pulls 3 (ScannedStream.new
        [Except.ok [72, 101, 108, 108, 111, 32], Except.ok [87, 111, 114, 108, 100]]
        (Conn.new (fun _ => true) "io" true (Except.ok "stream: OK")))).2.inner.written.flatten =
      START ++ ([[72, 101, 108, 108, 111, 32], [87, 111, 114, 108, 100]] :
        List (List Nat)).flatMap frameBytes ++ FINISH :=
  wire_framing [[72, 101, 108, 108, 111, 32], [87, 111, 114, 108, 100]] "io" true
    (Except.ok "stream: OK") (by decide) (by decide)

theorem chunksOf_length_mem (k : Nat) (hk : 1 ≤ k) :
    ∀ (l sc : List α), sc ∈ chunksOf k l → 0 < sc.length ∧ sc.length ≤ k
  | [], sc, h => by simp [chunksOf] at h
  | a :: tl, sc, h => by
    simp only [chunksOf, List.mem_cons] at h
    rcases h with h | h
    · subst h
      have h1 : (List.take (k - 1) tl).length ≤ k - 1 := by
        rw [List.length_take]
        exact Nat.min_le_left _ _
      simp only [List.length_cons]
      omega
    · exact chunksOf_length_mem k hk (tl.drop (k - 1)) sc h
termination_by l => l.length
decreasing_by
  simp only [List.length_drop, List.length_cons]
  omega

theorem u32be_ne_FINISH (n : Nat) (h1 : 0 < n) (h2 : n ≤ 4096) : u32be n ≠ FINISH := by
  intro h
  simp only [u32be, FINISH, List.cons.injEq, and_true] at h
  simp only [show (2 : Nat) ^ 24 = 16777216 from rfl, show (2 : Nat) ^ 16 = 65536 from rfl,
    show (2 : Nat) ^ 8 = 256 from rfl] at h
  omega

/-- Claim C9 (data-frame length bound): on a completed run the write log
is preamble (iff any chunk arrived), then per sub-chunk a length prefix
and exactly that sub-chunk, then the single terminator; every sub-chunk
sliced from an upstream chunk has length `L` with `0 < L ≤ 4096` and its
length prefix is never the all-zero field; an empty upstream chunk is
still passed through to the consumer but contributes no frame. -/
theorem frame_length_bound (cs : List (List Nat)) (m res : String) :
    ((pulls (cs.length + 1) (ScannedStream.new (cs.map Except.ok)
        (Conn.new (fun _ => true) m true (Except.ok res)))).2.inner.written =
      (if cs.isEmpty then [] else [START]) ++ cs.flatMap frameWrites ++ [FINISH]) ∧
    ((pulls cs.length (ScannedStream.new (cs.map Except.ok)
        (Conn.new (fun _ => true) m true (Except.ok res)))).1 =
      cs.map (fun b => some (Except.ok b))) ∧
    (∀ b, b ∈ cs → ∀ sc, sc ∈ chunksOf CHUNK_SIZE b →
      0 < sc.length ∧ sc.length ≤ CHUNK_SIZE ∧ u32be sc.length ≠ FINISH) ∧
    frameWrites [] = [] := by
  refine ⟨?_, ?_, ?_, by simp [frameWrites, chunksOf]⟩
  · rw [pulls_add]
    rw [pulls_data cs [] _ (by simp [ScannedStream.new])
      (by simp [ScannedStream.new, Conn.new])]
    simp only [pulls]
    rw [poll_finalize _ (by simp [dataState]) (by simp [dataState, ScannedStream.new])
      (by simp [dataState, ScannedStream.new, Conn.new])]
    simp [dataState, ScannedStream.new, Conn.new, List.append_assoc]
  · rw [pulls_data cs [] _ (by simp [ScannedStream.new])
      (by simp [ScannedStream.new, Conn.new])]
  · intro b hb sc hsc
    have h := chunksOf_length_mem CHUNK_SIZE (by decide) b sc hsc
    refine ⟨h.1, h.2, u32be_ne_FINISH _ h.1 ?_⟩
    simpa [CHUNK_SIZE] using h.2

theorem write_stream_readCount (c : Conn) (buf : List Nat) :
    (write_stream c buf).1.readCount = c.readCount := by
  simp only [write_stream]
  split <;> rfl

theorem writeFrames_readCount (scs : List (List Nat)) (c : Conn) :
    (writeFrames c scs).1.readCount = c.readCount := by
  induction scs generalizing c with
  | nil => rfl
  | cons sc rest ih =>
    simp only [writeFrames]
    rcases h1 : (write_stream c (u32be sc.length)).2 with _ | e1
    · rcases h2 : (write_stream (write_stream c (u32be sc.length)).1 sc).2 with _ | e2
      · simp only [ih, write_stream_readCount]
      · simp only [write_stream_readCount]
    · simp only [write_stream_readCount]

theorem read_stream_response_readCount (c : Conn) :
    (read_stream_response c).1.readCount = c.readCount + 1 := by
  cases hro : c.readOk
  · simp [read_stream_response, hro]
  · cases hresp : c.response with
    | error u => simp [read_stream_response, hro, hresp]
    | ok res =>
      simp only [read_stream_response, hro, hresp, if_true]
      split <;> rfl

/-- The single-dialogue invariant: the preamble write was attempted at
most once (and only once started), the terminator write and the response
read were attempted at most once (and only once finished), and a
finished relay has an exhausted upstream. -/
def DialogueInv (s : ScannedStream) : Prop :=
  s.startWrites ≤ 1 ∧ (s.started = false → s.startWrites = 0) ∧
    s.finishWrites ≤ 1 ∧ s.inner.readCount ≤ 1 ∧
    (s.finished = false → s.finishWrites = 0 ∧ s.inner.readCount = 0) ∧
    (s.finished = true → s.input = [])

theorem DialogueInv_poll (s : ScannedStream) (h : DialogueInv s) :
    DialogueInv (poll_next s).1 := by
  obtain ⟨h1, h2, h3, h4, h5, h6⟩ := h
  rcases hin : s.input with _ | ⟨item, rest⟩
  · cases hfin : s.finished
    · have h7 := h5 hfin
      simp only [poll_next, hin, hfin, Bool.false_eq_true, if_false]
      rcases hw1 : (write_stream s.inner FINISH).2 with _ | e1
      · rcases hr : (read_stream_response (write_stream s.inner FINISH).1).2 with _ | e2
        all_goals simp only []
        all_goals dsimp only [DialogueInv]
        all_goals
          refine ⟨h1, fun hs => h2 hs, by omega, ?_, by simp, fun _ => rfl⟩
        all_goals
          simp only [read_stream_response_readCount, write_stream_readCount]
          omega
      · simp only []
        dsimp only [DialogueInv]
        refine ⟨h1, fun hs => h2 hs, by omega, ?_, by simp, fun _ => rfl⟩
        simp only [write_stream_readCount]
        omega
    · rw [poll_done s hin hfin]
      exact ⟨h1, h2, h3, h4, h5, h6⟩
  · have hfin : s.finished = false := by
      cases hf : s.finished
      · rfl
      · rw [h6 hf] at hin
        cases hin
    rcases item with err | bytes
    · simp only [poll_next, hin]
      exact ⟨h1, h2, h3, h4, h5, fun hf => by rw [hfin] at hf; cases hf⟩
    · simp only [poll_next, hin]
      cases hst : s.started
      · simp only [Bool.false_eq_true, if_false]
        rcases hw1 : (write_stream s.inner START).2 with _ | e1
        · rcases hw2 : (writeFrames (write_stream s.inner START).1
              (chunksOf CHUNK_SIZE bytes)).2 with _ | e2
          all_goals simp only []
          all_goals dsimp only [DialogueInv]
          all_goals
            refine ⟨by have := h2 hst; omega, by simp, h3, ?_,
              fun hf => ⟨(h5 hf).1, ?_⟩, fun hf => by rw [hfin] at hf; cases hf⟩
          all_goals
            simp only [writeFrames_readCount, write_stream_readCount]
            first
              | omega
              | exact (h5 (by assumption)).2
        · simp only []
          dsimp only [DialogueInv]
          refine ⟨by have := h2 hst; omega, by simp, h3, ?_,
            fun hf => ⟨(h5 hf).1, ?_⟩, fun hf => by rw [hfin] at hf; cases hf⟩
          all_goals
            simp only [write_stream_readCount]
            first
              | omega
              | exact (h5 (by assumption)).2
      · simp only [if_true]
        rcases hw2 : (writeFrames s.inner (chunksOf CHUNK_SIZE bytes)).2 with _ | e2
        all_goals simp only []
        all_goals dsimp only [DialogueInv]
        all_goals
          refine ⟨h1, by simp [hst], h3, ?_,
            fun hf => ⟨(h5 hf).1, ?_⟩, fun hf => by rw [hfin] at hf; cases hf⟩
        all_goals
          simp only [writeFrames_readCount]
          first
            | omega
            | exact (h5 (by assumption)).2

theorem DialogueInv_pulls (k : Nat) (s : ScannedStream) (h : DialogueInv s) : DialogueInv (pulls k s).2 := by
  induction k generalizing s with
  | zero => exact h
  | succ k ih => exact ih _ (DialogueInv_poll s h)

/-- Claim C5 (single dialogue guarantee): over any number of pulls on one
`ScannedStream` instance — any upstream, any write/read fault pattern —
the preamble write is attempted at most once, the terminator write and
the response read are attempted at most once, and once finalization has
happened every subsequent pull returns end-of-stream. -/
theorem single_dialogue (inp : List (Except String (List Nat))) (wOk : Nat → Bool)
    (m : String) (rOk : Bool) (resp : Except String String) (k j : Nat) :
    (pulls k (ScannedStream.new inp (Conn.new wOk m rOk resp))).2.startWrites ≤ 1 ∧
    (pulls k (ScannedStream.new inp (Conn.new wOk m rOk resp))).2.finishWrites ≤ 1 ∧
    (pulls k (ScannedStream.new inp (Conn.new wOk m rOk resp))).2.inner.readCount ≤ 1 ∧
    ((pulls k (ScannedStream.new inp (Conn.new wOk m rOk resp))).2.finished = true →
      (pulls j (pulls k (ScannedStream.new inp (Conn.new wOk m rOk resp))).2).1 =
        List.replicate j none) := by
  have h0 : DialogueInv (ScannedStream.new inp (Conn.new wOk m rOk resp)) := by
    simp [DialogueInv, ScannedStream.new, Conn.new]
  obtain ⟨h1, h2, h3, h4, h5, h6⟩ := DialogueInv_pulls k _ h0
  refine ⟨h1, h3, h4, fun hf => ?_⟩
  rw [pulls_done j _ (h6 hf) hf]

